import Mathlib

/-!
Verification of the hex-map-editor's coordinate engine and editing state
machine, shallowly embedded from the repository's sources.

The repository contains two variants of the editor component:
* the current TypeScript component (the one with `tier` clamped to 0–3,
  a brush tool, spawn/goal markers and File System Access import/export);
* a legacy JSX variant (`src/App.jsx`, with an unrestricted `height`
  field) that differs in the pointy-orientation stagger term of
  `axialToPixel`.

JavaScript numbers standing for integer coordinates are modelled as `ℤ`
(the JS `%` operator on integers is truncated remainder, `Int.tmod`);
other numeric values are modelled as `ℝ`.  JS `Set` objects are modelled
as `Finset String`; arrays as lists; `null`/`undefined` as `Option`.
-/

namespace HexMap

/-- `const SQRT3 = Math.sqrt(3)`. -/
noncomputable def SQRT3 : ℝ := Real.sqrt 3

/-- `export type Orientation = 'pointy' | 'flat'`. -/
inductive Orientation where
  | pointy : Orientation
  | flat : Orientation
deriving DecidableEq, Repr

/-- `axialToPixel` from the TypeScript component: maps an axial tile
coordinate to its pixel center.  `rr` is the mirrored row index, used for
the primary placement axis; the stagger term uses the original `r`
(pointy) or `q` (flat).  Source comment: "Use original r for stagger to
maintain row alignment when mirroring". -/
noncomputable def axialToPixel (q r : ℤ) (size : ℝ) (orientation : Orientation)
    (rect stagger mirror : Bool) (maxR : ℤ) : ℝ × ℝ :=
  let rr : ℤ := if mirror then maxR - r else r
  match orientation with
  | .pointy =>
    let baseX : ℝ := size * SQRT3 * (if rect then (q : ℝ) else (q : ℝ) + (rr : ℝ) / 2)
    let y : ℝ := size * 1.5 * (rr : ℝ)
    let x : ℝ := if stagger then baseX + (((Int.tmod r 2 : ℤ) : ℝ) * SQRT3 * size) / 2 else baseX
    (x, y)
  | .flat =>
    let baseY : ℝ := size * SQRT3 * (if rect then (rr : ℝ) else (rr : ℝ) + (q : ℝ) / 2)
    let x : ℝ := size * 1.5 * (q : ℝ)
    let y : ℝ := if stagger then baseY + (((Int.tmod q 2 : ℤ) : ℝ) * SQRT3 * size) / 2 else baseY
    (x, y)

/-- `axialToPixel` from the legacy JSX variant (`src/App.jsx`): identical
except that the pointy-orientation stagger term uses the mirrored index
`rr` instead of the original `r`. -/
noncomputable def axialToPixelJsx (q r : ℤ) (size : ℝ) (orientation : Orientation)
    (rect stagger mirror : Bool) (maxR : ℤ) : ℝ × ℝ :=
  let rr : ℤ := if mirror then maxR - r else r
  match orientation with
  | .pointy =>
    let baseX : ℝ := size * SQRT3 * (if rect then (q : ℝ) else (q : ℝ) + (rr : ℝ) / 2)
    let y : ℝ := size * 1.5 * (rr : ℝ)
    let x : ℝ := if stagger then baseX + (((Int.tmod rr 2 : ℤ) : ℝ) * SQRT3 * size) / 2 else baseX
    (x, y)
  | .flat =>
    let baseY : ℝ := size * SQRT3 * (if rect then (rr : ℝ) else (rr : ℝ) + (q : ℝ) / 2)
    let x : ℝ := size * 1.5 * (q : ℝ)
    let y : ℝ := if stagger then baseY + (((Int.tmod q 2 : ℤ) : ℝ) * SQRT3 * size) / 2 else baseY
    (x, y)

/-- The stagger offset contributed by `axialToPixel`: the difference
between its result with `stagger = true` and with `stagger = false`, all
other arguments fixed. -/
noncomputable def staggerOffset (q r : ℤ) (size : ℝ) (orientation : Orientation)
    (rect mirror : Bool) (maxR : ℤ) : ℝ × ℝ :=
  ((axialToPixel q r size orientation rect true mirror maxR).1 -
     (axialToPixel q r size orientation rect false mirror maxR).1,
   (axialToPixel q r size orientation rect true mirror maxR).2 -
     (axialToPixel q r size orientation rect false mirror maxR).2)

/-- The stagger offset of the legacy JSX variant. -/
noncomputable def staggerOffsetJsx (q r : ℤ) (size : ℝ) (orientation : Orientation)
    (rect mirror : Bool) (maxR : ℤ) : ℝ × ℝ :=
  ((axialToPixelJsx q r size orientation rect true mirror maxR).1 -
     (axialToPixelJsx q r size orientation rect false mirror maxR).1,
   (axialToPixelJsx q r size orientation rect true mirror maxR).2 -
     (axialToPixelJsx q r size orientation rect false mirror maxR).2)

/-- Closed form of the TS component's stagger offset: it depends only on
the truncated parity of the unmirrored `r` (pointy) or `q` (flat), never
on `mirror` or `maxR`. -/
theorem staggerOffset_formula (q r : ℤ) (size : ℝ) (orientation : Orientation)
    (rect mirror : Bool) (maxR : ℤ) :
    staggerOffset q r size orientation rect mirror maxR =
      match orientation with
      | .pointy => ((((Int.tmod r 2 : ℤ) : ℝ) * SQRT3 * size) / 2, 0)
      | .flat => (0, (((Int.tmod q 2 : ℤ) : ℝ) * SQRT3 * size) / 2) := by
  cases orientation <;> cases rect <;> cases mirror <;>
    simp [staggerOffset, axialToPixel]

/-- C1 (amended): for the current TypeScript component's `axialToPixel`,
the stagger offset is identical for `mirror = true` and `mirror = false`
(indeed for any two mirror/maxR configurations), and depends only on the
truncated parity of the original unmirrored `r` (pointy) or `q` (flat). -/
theorem stagger_mirror_independent (q r : ℤ) (size : ℝ) (orientation : Orientation)
    (rect : Bool) (maxR maxR2 : ℤ) (m1 m2 : Bool) :
    staggerOffset q r size orientation rect true maxR =
      staggerOffset q r size orientation rect false maxR ∧
    staggerOffset q r size orientation rect m1 maxR =
      staggerOffset q r size orientation rect m2 maxR2 ∧
    staggerOffset q r size orientation rect m1 maxR =
      (match orientation with
       | .pointy => ((((Int.tmod r 2 : ℤ) : ℝ) * SQRT3 * size) / 2, 0)
       | .flat => (0, (((Int.tmod q 2 : ℤ) : ℝ) * SQRT3 * size) / 2)) := by
  refine ⟨?_, ?_, staggerOffset_formula q r size orientation rect m1 maxR⟩ <;>
    rw [staggerOffset_formula, staggerOffset_formula]

/-- C1 (counterexample): the claim quantifies over the repository's
`axialToPixel` implementations, and the legacy JSX variant violates it:
at `q = 0, r = 0, size = 1, pointy, rect = true, maxR = 1`, its stagger
offset with `mirror = true` is `√3 / 2` but with `mirror = false` it is
`0` — the offset depends on the mirrored index `maxR − r`. -/
theorem stagger_mirror_independent_cex :
    staggerOffsetJsx 0 0 1 Orientation.pointy true true 1 ≠
      staggerOffsetJsx 0 0 1 Orientation.pointy true false 1 := by
  have h3 : (0 : ℝ) < SQRT3 := Real.sqrt_pos.mpr (by norm_num)
  simp only [staggerOffsetJsx, axialToPixelJsx, Prod.mk.injEq, ne_eq]
  intro h
  have hx := h.1
  norm_num at hx
  rcases hx with hx | hx
  · exact absurd hx (by decide)
  · exact absurd hx (ne_of_gt h3)

/-- JS `%` on an odd positive integer and 2 yields 1. -/
lemma tmod_two_of_odd_pos {r : ℤ} (h : Odd r) (h2 : 0 < r) : Int.tmod r 2 = 1 := by
  obtain ⟨k, hk⟩ := h
  rw [Int.tmod_eq_emod h2.le (by norm_num)]
  omega

/-- JS `%` on an odd negative integer and 2 yields −1. -/
lemma tmod_two_of_odd_neg {r : ℤ} (h : Odd r) (h2 : r < 0) : Int.tmod r 2 = -1 := by
  obtain ⟨k, hk⟩ := h
  have key : (-r).tmod 2 = 1 := by
    rw [Int.tmod_eq_emod (by omega) (by norm_num)]; omega
  have hd : Int.tmod (-r) 2 = -(Int.tmod r 2) := by
    rw [Int.tmod_def, Int.tmod_def, Int.neg_tdiv]; ring
  omega

/-- JS `%` on an even integer and 2 yields 0. -/
lemma tmod_two_of_even {r : ℤ} (h : Even r) : Int.tmod r 2 = 0 := by
  obtain ⟨k, hk⟩ := h
  have h2 : r = 2 * k := by omega
  rw [h2, Int.mul_tmod_right]

/-- C10: the stagger offset's sign follows the sign of the unmirrored row
(pointy) / column (flat) index, because the JS remainder operator is a
truncated remainder: positive odd index gives `+(√3·size)/2`, negative
odd index gives `−(√3·size)/2`, even index gives `0`. -/
theorem stagger_sign_follows_index (q r : ℤ) (size : ℝ) (rect mirror : Bool)
    (maxR : ℤ) :
    (Odd r → 0 < r →
      staggerOffset q r size Orientation.pointy rect mirror maxR = ((SQRT3 * size) / 2, 0)) ∧
    (Odd r → r < 0 →
      staggerOffset q r size Orientation.pointy rect mirror maxR = (-((SQRT3 * size) / 2), 0)) ∧
    (Even r →
      staggerOffset q r size Orientation.pointy rect mirror maxR = (0, 0)) ∧
    (Odd q → 0 < q →
      staggerOffset q r size Orientation.flat rect mirror maxR = (0, (SQRT3 * size) / 2)) ∧
    (Odd q → q < 0 →
      staggerOffset q r size Orientation.flat rect mirror maxR = (0, -((SQRT3 * size) / 2))) ∧
    (Even q →
      staggerOffset q r size Orientation.flat rect mirror maxR = (0, 0)) := by
  refine ⟨fun h h2 => ?_, fun h h2 => ?_, fun h => ?_,
    fun h h2 => ?_, fun h h2 => ?_, fun h => ?_⟩ <;>
    rw [staggerOffset_formula]
  · rw [tmod_two_of_odd_pos h h2]; norm_num
  · rw [tmod_two_of_odd_neg h h2]; norm_num; ring
  · rw [tmod_two_of_even h]; norm_num
  · rw [tmod_two_of_odd_pos h h2]; norm_num
  · rw [tmod_two_of_odd_neg h h2]; norm_num; ring
  · rw [tmod_two_of_even h]; norm_num

/-- C10 witness: concrete instances of the sign law at `r = 3`, `r = -3`
and `r = 2` with `q = 5`, `size = 2`, `rect = mirror = true`, `maxR = 7`. -/
theorem stagger_sign_follows_index_witness :
    Odd (3 : ℤ) ∧ (0 : ℤ) < 3 ∧ Odd (-3 : ℤ) ∧ (-3 : ℤ) < 0 ∧ Even (2 : ℤ) ∧
    staggerOffset 5 3 2 Orientation.pointy true true 7 = ((SQRT3 * 2) / 2, 0) ∧
    staggerOffset 5 (-3) 2 Orientation.pointy true true 7 = (-((SQRT3 * 2) / 2), 0) ∧
    staggerOffset 5 2 2 Orientation.pointy true true 7 = (0, 0) :=
  ⟨⟨1, by norm_num⟩, by norm_num, ⟨-2, by norm_num⟩, by norm_num, ⟨1, by norm_num⟩,
   (stagger_sign_follows_index 5 3 2 true true 7).1 ⟨1, by norm_num⟩ (by norm_num),
   (stagger_sign_follows_index 5 (-3) 2 true true 7).2.1 ⟨-2, by norm_num⟩ (by norm_num),
   (stagger_sign_follows_index 5 2 2 true true 7).2.2.1 ⟨1, by norm_num⟩⟩

/-- `interface Hex`: one tile of the map. -/
structure Hex where
  q : ℤ
  r : ℤ
  id : String
  asset : String
  terrain : String
  tier : ℤ
deriving DecidableEq, Repr

/-- `interface SpawnPoint` (also the shape of `worldTree`). -/
structure SpawnPoint where
  q : ℤ
  r : ℤ
deriving DecidableEq, Repr

/-- `type EditMode = 'terrain' | 'spawn' | 'goal'`. -/
inductive EditMode where
  | terrain : EditMode
  | spawn : EditMode
  | goal : EditMode
deriving DecidableEq, Repr

/-- `interface MapData`: the persisted document.  Optional keys are
`Option`; a JSON export omits a key whose value is `undefined` (`none`). -/
structure MapData where
  hexSize : ℝ
  orientation : Orientation
  map : List Hex
  spawnPoints : Option (List SpawnPoint)
  worldTree : Option SpawnPoint

-- ------------------------------------------------------------------
-- Tier controls (C5)
-- ------------------------------------------------------------------

/-- The SVG wheel handler and the tier widget's inline wheel:
`const delta = e.deltaY > 0 ? -1 : 1;`
`const newTier = Math.max(0, Math.min(3, baseTier + delta));`. -/
def wheelNewTier (tier : ℤ) (deltaYPos : Bool) : ℤ :=
  max 0 (min 3 (tier + (if deltaYPos then -1 else 1)))

/-- The tier widget's `-` button: `Math.max(0, selected.tier - 1)`. -/
def tierMinusButton (tier : ℤ) : ℤ := max 0 (tier - 1)

/-- The tier widget's `+` button: `Math.min(3, selected.tier + 1)`. -/
def tierPlusButton (tier : ℤ) : ℤ := min 3 (tier + 1)

/-- One edit through any of the tier controls. -/
inductive TierEdit where
  | wheelUp : TierEdit
  | wheelDown : TierEdit
  | minus : TierEdit
  | plus : TierEdit
deriving DecidableEq, Repr

/-- Apply one tier-control edit. -/
def applyTierEdit (tier : ℤ) : TierEdit → ℤ
  | .wheelUp => wheelNewTier tier false
  | .wheelDown => wheelNewTier tier true
  | .minus => tierMinusButton tier
  | .plus => tierPlusButton tier

/-- C5 (counterexample): an out-of-range starting tier 10 edited through
the tier widget's `-` button yields 9, which is not within `[0, 3]`. -/
theorem tier_clamp_cex : tierMinusButton 10 = 9 ∧ ¬(9 : ℤ) ≤ 3 := by decide

/-- C5 (amended): a wheel edit clamps any starting tier (including an
out-of-range imported one) into `[0, 3]`; the `-` button clamps only the
lower bound and the `+` button only the upper bound, so a single button
edit on an out-of-range tier can stay out of range; for a starting tier
already in `[0, 3]`, every sequence of tier-control edits keeps the tier
within `[0, 3]`. -/
theorem tier_clamp (t : ℤ) (d : Bool) (edits : List TierEdit) :
    (0 ≤ wheelNewTier t d ∧ wheelNewTier t d ≤ 3) ∧
    (0 ≤ tierMinusButton t) ∧ (tierPlusButton t ≤ 3) ∧
    (0 ≤ t → t ≤ 3 →
      0 ≤ edits.foldl applyTierEdit t ∧ edits.foldl applyTierEdit t ≤ 3) := by
  refine ⟨⟨?_, ?_⟩, ?_, ?_, ?_⟩
  · exact le_max_left 0 _
  · simp [wheelNewTier]
  · exact le_max_left 0 _
  · exact min_le_left 3 _
  · intro h0 h3
    induction edits generalizing t with
    | nil => exact ⟨h0, h3⟩
    | cons e rest ih =>
      have step : 0 ≤ applyTierEdit t e ∧ applyTierEdit t e ≤ 3 := by
        cases e <;>
          simp only [applyTierEdit, wheelNewTier, tierMinusButton, tierPlusButton] <;>
          omega
      simpa using ih (applyTierEdit t e) step.1 step.2

/-- C5 witness: starting from tier 2 (in range), the edit sequence
`[+, +, wheel-up, -]` stays within `[0, 3]`; and the wheel clamps the
out-of-range tier 10 into range. -/
theorem tier_clamp_witness :
    (0 ≤ wheelNewTier 10 false ∧ wheelNewTier 10 false ≤ 3) ∧
    ((0 : ℤ) ≤ 2 ∧ (2 : ℤ) ≤ 3) ∧
    (0 ≤ [TierEdit.plus, TierEdit.plus, TierEdit.wheelUp, TierEdit.minus].foldl applyTierEdit 2 ∧
      [TierEdit.plus, TierEdit.plus, TierEdit.wheelUp, TierEdit.minus].foldl applyTierEdit 2 ≤ 3) :=
  ⟨(tier_clamp 10 false []).1, ⟨by decide, by decide⟩,
   (tier_clamp 2 false [TierEdit.plus, TierEdit.plus, TierEdit.wheelUp, TierEdit.minus]).2.2.2
     (by decide) (by decide)⟩

-- ------------------------------------------------------------------
-- Marker registry (C6)
-- ------------------------------------------------------------------

/-- `toggleSpawnPoint`: if a spawn point with the given coordinates
exists, remove every such entry, else append one. -/
def toggleSpawnPoint (q r : ℤ) (prev : List SpawnPoint) : List SpawnPoint :=
  match prev.find? (fun sp => sp.q == q && sp.r == r) with
  | some _ => prev.filter (fun sp => !(sp.q == q && sp.r == r))
  | none => prev ++ [⟨q, r⟩]

/-- `setWorldTreeAt`: toggle semantics — clicking the current goal tile
removes the goal, otherwise the goal moves to the clicked tile. -/
def setWorldTreeAt (q r : ℤ) (worldTree : Option SpawnPoint) : Option SpawnPoint :=
  match worldTree with
  | some t => if t.q == q && t.r == r then none else some ⟨q, r⟩
  | none => some ⟨q, r⟩

/-- A spawn point matches the clicked coordinates iff it is that point. -/
lemma spawnPred_eq (q r : ℤ) (sp : SpawnPoint) :
    (sp.q == q && sp.r == r) = true ↔ sp = (⟨q, r⟩ : SpawnPoint) := by
  cases sp
  simp [SpawnPoint.mk.injEq]

/-- The spawn lookup misses iff the clicked point is not in the list. -/
lemma spawn_find_eq_none (q r : ℤ) (l : List SpawnPoint) :
    l.find? (fun sp => sp.q == q && sp.r == r) = none ↔ (⟨q, r⟩ : SpawnPoint) ∉ l := by
  rw [List.find?_eq_none]
  constructor
  · intro h hm
    exact h _ hm (by simp)
  · intro h sp hsp hc
    exact h (((spawnPred_eq q r sp).mp hc) ▸ hsp)

/-- Toggling a present spawn point filters out every matching entry. -/
lemma toggleSpawnPoint_of_mem (q r : ℤ) (l : List SpawnPoint)
    (h : (⟨q, r⟩ : SpawnPoint) ∈ l) :
    toggleSpawnPoint q r l = l.filter (fun sp => !(sp.q == q && sp.r == r)) := by
  unfold toggleSpawnPoint
  rcases hfind : l.find? (fun sp => sp.q == q && sp.r == r) with _ | y
  · exact absurd h ((spawn_find_eq_none q r l).mp hfind)
  · rw [hfind]

/-- Toggling an absent spawn point appends it. -/
lemma toggleSpawnPoint_of_not_mem (q r : ℤ) (l : List SpawnPoint)
    (h : (⟨q, r⟩ : SpawnPoint) ∉ l) :
    toggleSpawnPoint q r l = l ++ [⟨q, r⟩] := by
  unfold toggleSpawnPoint
  rw [(spawn_find_eq_none q r l).mpr h]

/-- C6 (counterexample): with the goal already at `p = (0, 0)`, setting
the goal at `p` twice in succession yields `some (0, 0)`, not `none` —
the first click clears the goal and the second click sets it again. -/
theorem goal_double_set_cex :
    setWorldTreeAt 0 0 (setWorldTreeAt 0 0 (some ⟨0, 0⟩)) = some ⟨0, 0⟩ ∧
    (some (⟨0, 0⟩ : SpawnPoint)) ≠ none := by decide

/-- C6 (amended): toggling the spawn point at `p` twice restores the
spawn set's membership for every coordinate; setting the goal at `p`
twice yields `none` provided the goal was not already at `p` (when it
was, the two sets restore `goal = some p`); setting the goal at `p` while
it is set elsewhere replaces it with `p`; and the result of a goal set is
always `none` or `some p`, so at most one goal ever exists. -/
theorem spawn_goal_toggle_laws (q r : ℤ) (l : List SpawnPoint) (p : SpawnPoint)
    (g : Option SpawnPoint) :
    (p ∈ toggleSpawnPoint q r (toggleSpawnPoint q r l) ↔ p ∈ l) ∧
    (g ≠ some ⟨q, r⟩ → setWorldTreeAt q r (setWorldTreeAt q r g) = none) ∧
    (g = some ⟨q, r⟩ → setWorldTreeAt q r (setWorldTreeAt q r g) = g) ∧
    (∀ t, g = some t → t ≠ (⟨q, r⟩ : SpawnPoint) → setWorldTreeAt q r g = some ⟨q, r⟩) ∧
    (setWorldTreeAt q r g = none ∨ setWorldTreeAt q r g = some ⟨q, r⟩) := by
  refine ⟨?_, ?_, ?_, ?_, ?_⟩
  · by_cases hm : (⟨q, r⟩ : SpawnPoint) ∈ l
    · rw [toggleSpawnPoint_of_mem q r l hm]
      have hnm : (⟨q, r⟩ : SpawnPoint) ∉ l.filter (fun sp => !(sp.q == q && sp.r == r)) := by
        intro hc
        have := (List.mem_filter.mp hc).2
        simp at this
      rw [toggleSpawnPoint_of_not_mem q r _ hnm]
      by_cases hp : p = (⟨q, r⟩ : SpawnPoint)
      · subst hp
        simp [hm]
      · have hd : ¬p.q = q ∨ ¬p.r = r := by
          by_contra hc
          push_neg at hc
          exact hp ((spawnPred_eq q r p).mp (by simp [hc.1, hc.2]))
        simp [List.mem_filter, hp]
        tauto
    · rw [toggleSpawnPoint_of_not_mem q r l hm]
      have hm2 : (⟨q, r⟩ : SpawnPoint) ∈ l ++ [(⟨q, r⟩ : SpawnPoint)] := by simp
      rw [toggleSpawnPoint_of_mem q r _ hm2]
      rw [List.filter_append]
      have h1 : l.filter (fun sp => !(sp.q == q && sp.r == r)) = l := by
        rw [List.filter_eq_self]
        intro a ha
        have hane : a ≠ (⟨q, r⟩ : SpawnPoint) := fun hc => hm (hc ▸ ha)
        rw [Bool.not_eq_eq_eq_not, Bool.not_true, ← Bool.not_eq_true]
        intro hc
        exact hane ((spawnPred_eq q r a).mp hc)
      have h2 : List.filter (fun sp => !(sp.q == q && sp.r == r))
          [(⟨q, r⟩ : SpawnPoint)] = [] := by simp
      rw [h1, h2, List.append_nil]
  · intro hg
    cases g with
    | none => simp [setWorldTreeAt]
    | some t =>
      have ht : ¬(t.q == q && t.r == r) = true := by
        intro hc
        exact hg (by rw [(spawnPred_eq q r t).mp hc])
      simp [setWorldTreeAt, ht]
  · intro hg
    subst hg
    simp [setWorldTreeAt]
  · intro t hg ht
    subst hg
    have hf : ¬(t.q == q && t.r == r) = true := fun hc => ht ((spawnPred_eq q r t).mp hc)
    simp [setWorldTreeAt, hf]
  · cases g with
    | none => simp [setWorldTreeAt]
    | some t =>
      by_cases hc : (t.q == q && t.r == r) = true <;> simp [setWorldTreeAt, hc]

/-- C6 witness: concrete instances — double-toggle membership at a point
present in the list, and the goal laws at `(1, 2)` with the goal
elsewhere. -/
theorem spawn_goal_toggle_laws_witness :
    ((⟨5, 6⟩ : SpawnPoint) ∈
        toggleSpawnPoint 1 2 (toggleSpawnPoint 1 2 [⟨5, 6⟩, ⟨1, 2⟩]) ↔
      (⟨5, 6⟩ : SpawnPoint) ∈ [(⟨5, 6⟩ : SpawnPoint), ⟨1, 2⟩]) ∧
    setWorldTreeAt 1 2 (setWorldTreeAt 1 2 (some ⟨5, 6⟩)) = none ∧
    setWorldTreeAt 1 2 (some ⟨5, 6⟩) = some ⟨1, 2⟩ :=
  ⟨(spawn_goal_toggle_laws 1 2 [⟨5, 6⟩, ⟨1, 2⟩] ⟨5, 6⟩ (some ⟨5, 6⟩)).1,
   (spawn_goal_toggle_laws 1 2 [] ⟨5, 6⟩ (some ⟨5, 6⟩)).2.1 (by decide),
   (spawn_goal_toggle_laws 1 2 [] ⟨5, 6⟩ (some ⟨5, 6⟩)).2.2.2.1 ⟨5, 6⟩ rfl (by decide)⟩

-- ------------------------------------------------------------------
-- Map document import/export (C3, C8)
-- ------------------------------------------------------------------

/-- The component state touched by import/export. -/
structure EditorState where
  data : Option MapData
  spawnPoints : List SpawnPoint
  worldTree : Option SpawnPoint
  selected : Option Hex
  editMode : EditMode

/-- The successful-parse tail shared by both import paths:
`setData(parsed); setSpawnPoints(parsed.spawnPoints ?? []);`
`setWorldTree(parsed.worldTree ?? null); setSelected(null);`
`setEditMode('terrain')`. -/
def importMapData (parsed : MapData) (st : EditorState) : EditorState :=
  { st with
      data := some parsed
      spawnPoints := parsed.spawnPoints.getD []
      worldTree := parsed.worldTree
      selected := none
      editMode := EditMode.terrain }

/-- `getExportData`: spread the current document, overriding
`spawnPoints` with the editor's list when non-empty (else `undefined`,
which JSON serialization omits) and `worldTree` with the editor's value
(`?? undefined`). -/
def getExportData (st : EditorState) : Option MapData :=
  match st.data with
  | none => none
  | some d =>
      some { d with
               spawnPoints := if 0 < st.spawnPoints.length then some st.spawnPoints else none
               worldTree := st.worldTree }

/-- The `reader.onload` body of `handleImport` (file-input fallback
path): a successful parse replaces the document wholesale, a parse
failure runs `alert('Invalid JSON')` and changes nothing.  The returned
Bool records whether the alert fired. -/
def handleImportOnLoad (parseResult : Option MapData) (st : EditorState) :
    EditorState × Bool :=
  match parseResult with
  | some parsed => (importMapData parsed st, false)
  | none => (st, true)

/-- The parse step of `handleImportClick` (File System Access picker
path): a successful parse replaces the document and returns; a parse
failure is caught (`JSON.parse` throws a `SyntaxError`, which is not an
`AbortError`), so control falls through to `fileRef.current?.click()`.
The two Bools record (alert fired, hidden file input clicked). -/
def handleImportClickParse (parseResult : Option MapData) (st : EditorState) :
    EditorState × Bool × Bool :=
  match parseResult with
  | some parsed => (importMapData parsed st, false, false)
  | none => (st, false, true)

/-- C3: importing a document and immediately exporting yields a
field-equivalent document: `hexSize`, `orientation` and `map` are
unchanged; `worldTree` is carried over exactly; `spawnPoints` is carried
over when non-empty and omitted (`none`) when absent or empty. -/
theorem import_export_roundtrip (doc : MapData) (st : EditorState) :
    ∃ e, getExportData (importMapData doc st) = some e ∧
      e.hexSize = doc.hexSize ∧ e.orientation = doc.orientation ∧ e.map = doc.map ∧
      e.worldTree = doc.worldTree ∧
      (∀ l, doc.spawnPoints = some l → l ≠ [] → e.spawnPoints = some l) ∧
      ((doc.spawnPoints = none ∨ doc.spawnPoints = some []) → e.spawnPoints = none) := by
  refine ⟨_, rfl, rfl, rfl, rfl, rfl, ?_, ?_⟩
  · intro l hl hne
    simp only [importMapData, hl, Option.getD_some]
    rw [if_pos (by simpa using List.length_pos.mpr hne)]
  · intro hl
    rcases hl with hl | hl <;> simp [importMapData, hl]

/-- C3 witness: a concrete document with two tiles, one spawn point and
a goal round-trips with all keys preserved. -/
theorem import_export_roundtrip_witness :
    ∃ e, getExportData (importMapData
        ⟨(1 : ℝ), Orientation.pointy,
         [⟨0, 0, "0,0", "", "grass", 1⟩, ⟨1, 0, "1,0", "", "water", 0⟩],
         some [⟨1, 2⟩], some ⟨3, 4⟩⟩
        ⟨none, [], none, none, EditMode.terrain⟩) = some e ∧
      e.spawnPoints = some [⟨1, 2⟩] ∧ e.worldTree = some ⟨3, 4⟩ := by
  obtain ⟨e, he, h1, h2, h3, h4, h5, h6⟩ := import_export_roundtrip
      ⟨(1 : ℝ), Orientation.pointy,
       [⟨0, 0, "0,0", "", "grass", 1⟩, ⟨1, 0, "1,0", "", "water", 0⟩],
       some [⟨1, 2⟩], some ⟨3, 4⟩⟩
      ⟨none, [], none, none, EditMode.terrain⟩
  exact ⟨e, he, h5 [⟨1, 2⟩] rfl (by simp), h4⟩

/-- C8 (counterexample): on the File System Access picker path, a payload
that fails to parse does not show the alert: the thrown `SyntaxError` is
caught and control falls through to clicking the hidden file input. -/
theorem import_failure_alert_cex :
    (handleImportClickParse none ⟨none, [], none, none, EditMode.terrain⟩).2.1 = false ∧
    (handleImportClickParse none ⟨none, [], none, none, EditMode.terrain⟩).2.2 = true :=
  ⟨rfl, rfl⟩

/-- C8 (amended): a malformed payload never replaces the document and
never mutates the document, spawn points, goal or selection, on either
path of an import (the operation is all-or-nothing); the blocking alert fires
only on the file-input fallback path, while the picker path instead
falls through to clicking the hidden file input. -/
theorem import_failure_preserves (st : EditorState) :
    (handleImportOnLoad none st).1 = st ∧
    (handleImportOnLoad none st).2 = true ∧
    (handleImportClickParse none st).1 = st ∧
    (handleImportClickParse none st).2.1 = false ∧
    (handleImportClickParse none st).2.2 = true :=
  ⟨rfl, rfl, rfl, rfl, rfl⟩


-- ------------------------------------------------------------------
-- Stroke modes (C9)
-- ------------------------------------------------------------------

/-- The three mutually exclusive stroke-mode refs set by `onMouseDown`. -/
structure StrokeFlags where
  isPanning : Bool
  isDragSelecting : Bool
  isBrushPainting : Bool
deriving DecidableEq, Repr

/-- The flag assignment of `onMouseDown` (left button): brush painting
when the brush is enabled in terrain mode, drag-select on a modifier
click in terrain mode, otherwise panning.  (The brush branch also clears
the painted record and paints the initial tile; the pan branch records
the drag origin — neither affects which flags are set.) -/
def onMouseDownFlags (brushEnabled ctrl : Bool) (editMode : EditMode) : StrokeFlags :=
  if brushEnabled && editMode == EditMode.terrain then
    ⟨false, false, true⟩
  else if ctrl && editMode == EditMode.terrain then
    ⟨false, true, false⟩
  else
    ⟨true, false, false⟩

/-- What a pointer-move does, abstracted from its effect. -/
inductive MoveAction where
  | paint : MoveAction
  | addSelect : MoveAction
  | panMove : MoveAction
  | skip : MoveAction
deriving DecidableEq, Repr

/-- The branch taken by `onMouseMove`: the brush branch requires
`isBrushPainting.current && brushEnabled`, the drag-select branch
`isDragSelecting.current && (e.ctrlKey || e.metaKey)` — both re-read the
live brush-enabled flag / modifier keys — and the pan branch requires
`isPanning.current`. -/
def onMouseMoveAction (f : StrokeFlags) (brushEnabled ctrl : Bool) : MoveAction :=
  if f.isBrushPainting && brushEnabled then MoveAction.paint
  else if f.isDragSelecting && ctrl then MoveAction.addSelect
  else if f.isPanning then MoveAction.panMove
  else MoveAction.skip

/-- C9 (counterexample): a stroke entered as drag-select (modifier held
at pointer-down, brush off, terrain mode) performs the drag-select action
on a move while the modifier is still held, but performs no action on a
move after the modifier is released — the move handler re-evaluates the
modifier keys, so the behavior applied to the remaining moves changes. -/
theorem stroke_mode_reeval_cex :
    onMouseMoveAction (onMouseDownFlags false true EditMode.terrain) false true =
      MoveAction.addSelect ∧
    onMouseMoveAction (onMouseDownFlags false true EditMode.terrain) false false =
      MoveAction.skip ∧
    MoveAction.addSelect ≠ MoveAction.skip := by decide

/-- C9 (amended): at most one of the three stroke flags is set at any
point of a stroke — `onMouseDown` sets exactly one from the brush flag,
modifiers and edit mode, and moves never modify them — so a stroke never
performs a different mode's action than the one entered; but the move
handler re-reads the live brush-enabled flag (brush strokes) and modifier
keys (drag-select strokes): when they no longer hold, the move is a no-op
rather than the entered mode's action.  Panning moves are unconditional. -/
theorem stroke_modes_exclusive (be ctrl be2 ctrl2 : Bool) (editMode : EditMode) :
    ((onMouseDownFlags be ctrl editMode).isPanning.toNat +
       (onMouseDownFlags be ctrl editMode).isDragSelecting.toNat +
       (onMouseDownFlags be ctrl editMode).isBrushPainting.toNat = 1) ∧
    (onMouseMoveAction (onMouseDownFlags be ctrl editMode) be2 ctrl2 =
      if (onMouseDownFlags be ctrl editMode).isBrushPainting then
        (if be2 then MoveAction.paint else MoveAction.skip)
      else if (onMouseDownFlags be ctrl editMode).isDragSelecting then
        (if ctrl2 then MoveAction.addSelect else MoveAction.skip)
      else MoveAction.panMove) := by
  cases be <;> cases ctrl <;> cases be2 <;> cases ctrl2 <;> cases editMode <;> decide


-- ------------------------------------------------------------------
-- Selection state machine (C7)
-- ------------------------------------------------------------------

/-- The component state touched by `handleHexClick`. -/
structure ClickState where
  selected : Option Hex
  selectedMultiple : Finset String
  spawnPoints : List SpawnPoint
  worldTree : Option SpawnPoint
deriving DecidableEq

/-- `handleHexClick`: spawn/goal modes route to the marker registry; in
terrain mode a modifier click seeds the multi-set from a lone single
selection, toggles the clicked tile's membership and focuses it, while a
plain click clears the multi-set and selects the tile. -/
def handleHexClick (editMode : EditMode) (ctrl : Bool) (hex : Hex)
    (st : ClickState) : ClickState :=
  match editMode with
  | EditMode.spawn => { st with spawnPoints := toggleSpawnPoint hex.q hex.r st.spawnPoints }
  | EditMode.goal => { st with worldTree := setWorldTreeAt hex.q hex.r st.worldTree }
  | EditMode.terrain =>
    if ctrl then
      let seeded :=
        match st.selected with
        | some sel =>
            if st.selectedMultiple.card = 0 && sel.id != hex.id then
              insert sel.id st.selectedMultiple
            else st.selectedMultiple
        | none => st.selectedMultiple
      let toggled :=
        if hex.id ∈ seeded then seeded.erase hex.id else insert hex.id seeded
      { st with selectedMultiple := toggled, selected := some hex }
    else
      { st with selectedMultiple := ∅, selected := some hex }

/-- A plain terrain-mode click clears the multi-set and selects. -/
lemma handleHexClick_plain (hex : Hex) (st : ClickState) :
    handleHexClick EditMode.terrain false hex st =
      { st with selectedMultiple := ∅, selected := some hex } := rfl

/-- A modifier click from a lone single selection of a different tile
seeds the multi-set with it, adds the clicked tile and focuses it. -/
lemma handleHexClick_ctrl_single (hex sel : Hex) (st : ClickState)
    (hsel : st.selected = some sel) (hmulti : st.selectedMultiple = ∅)
    (hne : sel.id ≠ hex.id) :
    handleHexClick EditMode.terrain true hex st =
      { st with selectedMultiple := insert hex.id {sel.id}, selected := some hex } := by
  simp [handleHexClick, hsel, hmulti, hne, Ne.symm hne]

/-- A modifier click on a tile already in a non-empty multi-set removes
it and focuses it. -/
lemma handleHexClick_ctrl_mem (hex : Hex) (st : ClickState)
    (hcard : st.selectedMultiple.card ≠ 0) (hmem : hex.id ∈ st.selectedMultiple) :
    handleHexClick EditMode.terrain true hex st =
      { st with selectedMultiple := st.selectedMultiple.erase hex.id,
                selected := some hex } := by
  rcases hst : st.selected with _ | sel <;>
    simp [handleHexClick, hst, hcard, hmem]

/-- C7: a modifier click on `clicked` while the selection is
`single(other)` with `other ≠ clicked` seeds the multi-set with `other`,
toggles `clicked` in and focuses `clicked`; and the A, ctrl-B, ctrl-A
scenario ends with multi-set `{B}` and focus `A`. -/
theorem modifier_click_seed_toggle (clicked other A B : Hex) (st s0 : ClickState) :
    (st.selected = some other → other.id ≠ clicked.id → st.selectedMultiple = ∅ →
      (handleHexClick EditMode.terrain true clicked st).selectedMultiple =
          insert clicked.id {other.id} ∧
      (handleHexClick EditMode.terrain true clicked st).selected = some clicked) ∧
    (A.id ≠ B.id →
      (handleHexClick EditMode.terrain true A
          (handleHexClick EditMode.terrain true B
            (handleHexClick EditMode.terrain false A s0))).selectedMultiple = {B.id} ∧
      (handleHexClick EditMode.terrain true A
          (handleHexClick EditMode.terrain true B
            (handleHexClick EditMode.terrain false A s0))).selected = some A) := by
  constructor
  · intro hsel hne hmulti
    rw [handleHexClick_ctrl_single clicked other st hsel hmulti hne]
    exact ⟨rfl, rfl⟩
  · intro hne
    rw [handleHexClick_plain]
    rw [handleHexClick_ctrl_single B A _ rfl rfl hne]
    have hmem : A.id ∈ insert B.id ({A.id} : Finset String) := by simp
    rw [handleHexClick_ctrl_mem A _ (Finset.card_ne_zero_of_mem hmem) hmem]
    constructor
    · show (insert B.id ({A.id} : Finset String)).erase A.id = {B.id}
      rw [Finset.pair_comm, Finset.erase_insert (by simp [hne])]
    · rfl

/-- C7 witness: the seed-toggle law and the A, ctrl-B, ctrl-A scenario at
two concrete tiles with distinct ids and an empty starting state. -/
theorem modifier_click_seed_toggle_witness :
    ((handleHexClick EditMode.terrain true ⟨1, 0, "1,0", "", "grass", 0⟩
        ⟨some ⟨0, 0, "0,0", "", "grass", 0⟩, ∅, [], none⟩).selectedMultiple =
      insert "1,0" {"0,0"}) ∧
    ((handleHexClick EditMode.terrain true ⟨0, 0, "0,0", "", "grass", 0⟩
        (handleHexClick EditMode.terrain true ⟨1, 0, "1,0", "", "grass", 0⟩
          (handleHexClick EditMode.terrain false ⟨0, 0, "0,0", "", "grass", 0⟩
            ⟨none, ∅, [], none⟩))).selectedMultiple = {"1,0"}) := by
  have hA : (⟨0, 0, "0,0", "", "grass", 0⟩ : Hex).id ≠
      (⟨1, 0, "1,0", "", "grass", 0⟩ : Hex).id := by decide
  refine ⟨?_, ?_⟩
  · exact ((modifier_click_seed_toggle ⟨1, 0, "1,0", "", "grass", 0⟩
      ⟨0, 0, "0,0", "", "grass", 0⟩ ⟨0, 0, "0,0", "", "grass", 0⟩
      ⟨1, 0, "1,0", "", "grass", 0⟩
      ⟨some ⟨0, 0, "0,0", "", "grass", 0⟩, ∅, [], none⟩
      ⟨none, ∅, [], none⟩).1 rfl hA rfl).1
  · exact ((modifier_click_seed_toggle ⟨1, 0, "1,0", "", "grass", 0⟩
      ⟨0, 0, "0,0", "", "grass", 0⟩ ⟨0, 0, "0,0", "", "grass", 0⟩
      ⟨1, 0, "1,0", "", "grass", 0⟩
      ⟨some ⟨0, 0, "0,0", "", "grass", 0⟩, ∅, [], none⟩
      ⟨none, ∅, [], none⟩).2 hA).1

-- ------------------------------------------------------------------
-- Brush stroke engine (C2)
-- ------------------------------------------------------------------

/-- The state a brush stroke acts on: the document's tile list plus the
per-stroke `paintedInStroke` record. -/
structure StrokeState where
  map : List Hex
  painted : Finset String
deriving DecidableEq

/-- `paintHexWithBrush`: skip if the tile was already painted in this
stroke; skip if it already has the brush's terrain and tier; otherwise
record its id and overwrite terrain/tier in the document. -/
def paintHexWithBrush (bT : String) (bt : ℤ) (s : StrokeState) (hex : Hex) : StrokeState :=
  if hex.id ∈ s.painted then s
  else if hex.terrain == bT && hex.tier == bt then s
  else
    { map := s.map.map (fun h => if h.id == hex.id then { h with terrain := bT, tier := bt } else h),
      painted := insert hex.id s.painted }

/-- Look up a tile by id (first match in document order). -/
def tileAt (m : List Hex) (t : String) : Option Hex := m.find? (fun h => h.id == t)

/-- One paint attempt on the tile with id `t`: the pointer event resolves
the tile in the current document (as `findHexAtPoint` does) and paints it
with the brush; an id with no tile is a no-op. -/
def paintAttempt (bT : String) (bt : ℤ) (s : StrokeState) (t : String) : StrokeState :=
  match tileAt s.map t with
  | some hex => paintHexWithBrush bT bt s hex
  | none => s

/-- The trace of states of one stroke: pointer-down starts from a cleared
painted record, then one paint attempt per resolved pointer position. -/
def strokeStates (bT : String) (bt : ℤ) : StrokeState → List String → List StrokeState
  | s, [] => [s]
  | s, t :: ts => s :: strokeStates bT bt (paintAttempt bT bt s t) ts

/-- How many steps of a state trace mutate the tile with id `t`. -/
def changes (t : String) : List StrokeState → ℕ
  | s1 :: s2 :: rest => (if tileAt s1.map t = tileAt s2.map t then 0 else 1) + changes t (s2 :: rest)
  | _ => 0

/-- A successful id lookup returns a tile bearing that id. -/
lemma tileAt_some_id {m : List Hex} {t : String} {hex : Hex}
    (h : tileAt m t = some hex) : hex.id = t := by
  have := List.find?_some h
  simpa using this

/-- Unfold an id lookup one tile at a time. -/
lemma tileAt_cons (hd : Hex) (rest : List Hex) (t : String) :
    tileAt (hd :: rest) t = if hd.id = t then some hd else tileAt rest t := by
  by_cases h : hd.id = t
  · rw [if_pos h]; exact List.find?_cons_of_pos _ (by simp [h])
  · rw [if_neg h]; exact List.find?_cons_of_neg _ (by simp [h])

/-- The brush's document update rewrites exactly the looked-up tile. -/
lemma tileAt_brush_update (l : List Hex) (uid t bT : String) (bt : ℤ) :
    tileAt (l.map (fun h => if h.id == uid then { h with terrain := bT, tier := bt } else h)) t =
      if uid = t then
        (tileAt l t).map (fun h => { h with terrain := bT, tier := bt })
      else tileAt l t := by
  have hfun : (fun h : Hex => if h.id == uid then { h with terrain := bT, tier := bt } else h) =
      (fun h : Hex => if h.id = uid then { h with terrain := bT, tier := bt } else h) := by
    funext h
    by_cases hh : h.id = uid <;> simp [hh]
  rw [hfun]
  induction l with
  | nil => by_cases hut : uid = t <;> simp [tileAt, hut]
  | cons hd rest ih =>
    rw [List.map_cons]
    by_cases hut : uid = t
    · subst hut
      by_cases hh : hd.id = uid
      · simp [tileAt_cons, hh]
      · simp only [tileAt_cons, if_pos rfl] at ih ⊢
        simp [hh, ih]
    · by_cases hh : hd.id = uid
      · have hht : ¬hd.id = t := fun hc => hut (hh ▸ hc)
        simp only [tileAt_cons, if_neg hut] at ih ⊢
        simp [hh, hht, hut, ih]
      · simp only [tileAt_cons, if_neg hut] at ih ⊢
        by_cases hht : hd.id = t <;> simp [hh, hht, hut, Ne.symm hut, ih]

/-- A paint attempt on a missing id does nothing. -/
lemma paintAttempt_of_none {bT : String} {bt : ℤ} {s : StrokeState} {t : String}
    (h : tileAt s.map t = none) : paintAttempt bT bt s t = s := by
  unfold paintAttempt
  rw [h]

/-- A paint attempt on a present id paints the resolved tile. -/
lemma paintAttempt_of_some {bT : String} {bt : ℤ} {s : StrokeState} {t : String} {hex : Hex}
    (h : tileAt s.map t = some hex) :
    paintAttempt bT bt s t = paintHexWithBrush bT bt s hex := by
  unfold paintAttempt
  rw [h]

/-- Branch 1 of `paintHexWithBrush`: already painted in this stroke. -/
lemma paintHex_of_painted {bT : String} {bt : ℤ} {s : StrokeState} {hex : Hex}
    (hp : hex.id ∈ s.painted) : paintHexWithBrush bT bt s hex = s := by
  unfold paintHexWithBrush
  rw [if_pos hp]

/-- Branch 2 of `paintHexWithBrush`: the tile already matches the brush. -/
lemma paintHex_of_match {bT : String} {bt : ℤ} {s : StrokeState} {hex : Hex}
    (hp : hex.id ∉ s.painted) (hm : hex.terrain = bT ∧ hex.tier = bt) :
    paintHexWithBrush bT bt s hex = s := by
  unfold paintHexWithBrush
  rw [if_neg hp, if_pos (by simp [hm.1, hm.2])]

/-- Branch 3 of `paintHexWithBrush`: record the id and mutate the tile. -/
lemma paintHex_of_update {bT : String} {bt : ℤ} {s : StrokeState} {hex : Hex}
    (hp : hex.id ∉ s.painted) (hm : ¬(hex.terrain = bT ∧ hex.tier = bt)) :
    paintHexWithBrush bT bt s hex =
      { map := s.map.map
          (fun h => if h.id == hex.id then { h with terrain := bT, tier := bt } else h),
        painted := insert hex.id s.painted } := by
  unfold paintHexWithBrush
  rw [if_neg hp, if_neg (by simpa using hm)]

/-- The looked-up tile, if any, carries the brush's terrain and tier. -/
def BrushVal (bT : String) (bt : ℤ) (o : Option Hex) : Prop :=
  ∀ h, o = some h → h.terrain = bT ∧ h.tier = bt

/-- A tile that already carries the brush values is never changed by a
paint attempt (on any id). -/
lemma paintAttempt_preserves (bT : String) (bt : ℤ) (s : StrokeState) (t t2 : String)
    (hQ : BrushVal bT bt (tileAt s.map t)) :
    tileAt (paintAttempt bT bt s t2).map t = tileAt s.map t := by
  rcases hfind : tileAt s.map t2 with _ | hex
  · rw [paintAttempt_of_none hfind]
  · rw [paintAttempt_of_some hfind]
    by_cases hp : hex.id ∈ s.painted
    · rw [paintHex_of_painted hp]
    · by_cases hm : hex.terrain = bT ∧ hex.tier = bt
      · rw [paintHex_of_match hp hm]
      · rw [paintHex_of_update hp hm]
        rw [tileAt_brush_update s.map hex.id t bT bt]
        by_cases hit : hex.id = t
        · exfalso
          have ht2 : hex.id = t2 := tileAt_some_id hfind
          have hsome : tileAt s.map t = some hex := by
            rw [← hit, ht2]
            exact hfind
          exact hm (hQ hex hsome)
        · rw [if_neg hit]

/-- If a paint attempt changes the tile at `t`, the new value carries the
brush values. -/
lemma paintAttempt_change_brush (bT : String) (bt : ℤ) (s : StrokeState) (t t2 : String)
    (hch : tileAt (paintAttempt bT bt s t2).map t ≠ tileAt s.map t) :
    BrushVal bT bt (tileAt (paintAttempt bT bt s t2).map t) := by
  rcases hfind : tileAt s.map t2 with _ | hex
  · rw [paintAttempt_of_none hfind] at hch
    exact absurd rfl hch
  · rw [paintAttempt_of_some hfind] at hch ⊢
    by_cases hp : hex.id ∈ s.painted
    · rw [paintHex_of_painted hp] at hch
      exact absurd rfl hch
    · by_cases hm : hex.terrain = bT ∧ hex.tier = bt
      · rw [paintHex_of_match hp hm] at hch
        exact absurd rfl hch
      · rw [paintHex_of_update hp hm] at hch ⊢
        rw [tileAt_brush_update s.map hex.id t bT bt] at hch ⊢
        by_cases hit : hex.id = t
        · rw [if_pos hit] at hch ⊢
          have ht2 : hex.id = t2 := tileAt_some_id hfind
          have hsome : tileAt s.map t = some hex := by
            rw [← hit, ht2]
            exact hfind
          rw [hsome]
          intro h hh
          have hhe : { hex with terrain := bT, tier := bt } = h := by simpa using hh
          rw [← hhe]
          exact ⟨rfl, rfl⟩
        · rw [if_neg hit] at hch
          exact absurd rfl hch

/-- A stroke trace starts with its initial state. -/
lemma strokeStates_head (bT : String) (bt : ℤ) (s : StrokeState) (ids : List String) :
    ∃ rest, strokeStates bT bt s ids = s :: rest := by
  cases ids <;> exact ⟨_, rfl⟩

/-- A tile that carries the brush values at some point of a stroke is
never mutated for the rest of the stroke. -/
lemma changes_zero_of_brushval (bT : String) (bt : ℤ) (t : String) :
    ∀ (ids : List String) (s : StrokeState), BrushVal bT bt (tileAt s.map t) →
      changes t (strokeStates bT bt s ids) = 0 := by
  intro ids
  induction ids with
  | nil => intro s _; rfl
  | cons i rest ih =>
    intro s hQ
    have heq := paintAttempt_preserves bT bt s t i hQ
    obtain ⟨tl, htl⟩ := strokeStates_head bT bt (paintAttempt bT bt s i) rest
    show changes t (s :: strokeStates bT bt (paintAttempt bT bt s i) rest) = 0
    rw [htl]
    have h1 : changes t (s :: paintAttempt bT bt s i :: tl) =
        (if tileAt s.map t = tileAt (paintAttempt bT bt s i).map t then 0 else 1) +
          changes t (paintAttempt bT bt s i :: tl) := rfl
    rw [h1, if_pos heq.symm, ← htl, ih _ (by rw [heq]; exact hQ)]

/-- Each tile is mutated at most once per stroke. -/
lemma changes_le_one (bT : String) (bt : ℤ) (t : String) :
    ∀ (ids : List String) (s : StrokeState), changes t (strokeStates bT bt s ids) ≤ 1 := by
  intro ids
  induction ids with
  | nil => intro s; exact Nat.zero_le 1
  | cons i rest ih =>
    intro s
    obtain ⟨tl, htl⟩ := strokeStates_head bT bt (paintAttempt bT bt s i) rest
    show changes t (s :: strokeStates bT bt (paintAttempt bT bt s i) rest) ≤ 1
    rw [htl]
    have h1 : changes t (s :: paintAttempt bT bt s i :: tl) =
        (if tileAt s.map t = tileAt (paintAttempt bT bt s i).map t then 0 else 1) +
          changes t (paintAttempt bT bt s i :: tl) := rfl
    rw [h1]
    by_cases heq : tileAt s.map t = tileAt (paintAttempt bT bt s i).map t
    · rw [if_pos heq, ← htl]
      simpa using ih (paintAttempt bT bt s i)
    · rw [if_neg heq, ← htl]
      have hQ := paintAttempt_change_brush bT bt s t i (fun hc => heq hc.symm)
      rw [changes_zero_of_brushval bT bt t rest _ hQ]

/-- C2: within one stroke each tile undergoes at most one mutation, and
zero if it already matches the brush; an attempt on a tile matching the
brush leaves the state unchanged (no mutation, id not recorded); an
attempt on an already-recorded id is skipped; otherwise the tile is
mutated to the brush values and its id recorded, and the record only
grows during the stroke. -/
theorem paint_stroke_at_most_once (bT : String) (bt : ℤ) (map0 : List Hex)
    (ids : List String) (t : String) :
    changes t (strokeStates bT bt ⟨map0, ∅⟩ ids) ≤ 1 ∧
    (∀ h, tileAt map0 t = some h → h.terrain = bT → h.tier = bt →
      changes t (strokeStates bT bt ⟨map0, ∅⟩ ids) = 0) ∧
    (∀ (s : StrokeState) (h : Hex), tileAt s.map t = some h →
      h.terrain = bT → h.tier = bt → paintAttempt bT bt s t = s) ∧
    (∀ s : StrokeState, t ∈ s.painted → paintAttempt bT bt s t = s) ∧
    (∀ (s : StrokeState) (h : Hex), tileAt s.map t = some h → t ∉ s.painted →
      ¬(h.terrain = bT ∧ h.tier = bt) →
      tileAt (paintAttempt bT bt s t).map t =
          some { h with terrain := bT, tier := bt } ∧
      t ∈ (paintAttempt bT bt s t).painted) ∧
    (∀ (s : StrokeState) (t2 : String), t ∈ s.painted →
      t ∈ (paintAttempt bT bt s t2).painted) := by
  refine ⟨changes_le_one bT bt t ids _, ?_, ?_, ?_, ?_, ?_⟩
  · intro h hfind hT ht
    refine changes_zero_of_brushval bT bt t ids _ ?_
    intro h2 hfind2
    have : some h = some h2 := hfind ▸ hfind2
    injection this with hh
    exact ⟨hh ▸ hT, hh ▸ ht⟩
  · intro s h hfind hT ht
    rw [paintAttempt_of_some hfind]
    by_cases hp : h.id ∈ s.painted
    · exact paintHex_of_painted hp
    · exact paintHex_of_match hp ⟨hT, ht⟩
  · intro s hp
    rcases hfind : tileAt s.map t with _ | hex
    · exact paintAttempt_of_none hfind
    · rw [paintAttempt_of_some hfind]
      exact paintHex_of_painted ((tileAt_some_id hfind) ▸ hp)
  · intro s h hfind hp hm
    have hid : h.id = t := tileAt_some_id hfind
    have hp2 : h.id ∉ s.painted := hid ▸ hp
    rw [paintAttempt_of_some hfind, paintHex_of_update hp2 hm]
    constructor
    · show tileAt (s.map.map fun x =>
          if x.id == h.id then { x with terrain := bT, tier := bt } else x) t =
        some { h with terrain := bT, tier := bt }
      rw [tileAt_brush_update s.map h.id t bT bt, if_pos hid, hfind]
      rfl
    · show t ∈ insert h.id s.painted
      rw [hid]
      exact Finset.mem_insert_self t s.painted
  · intro s t2 hp
    rcases hfind : tileAt s.map t2 with _ | hex
    · rw [paintAttempt_of_none hfind]
      exact hp
    · rw [paintAttempt_of_some hfind]
      by_cases hpp : hex.id ∈ s.painted
      · rw [paintHex_of_painted hpp]
        exact hp
      · by_cases hm : hex.terrain = bT ∧ hex.tier = bt
        · rw [paintHex_of_match hpp hm]
          exact hp
        · rw [paintHex_of_update hpp hm]
          exact Finset.mem_insert_of_mem hp

/-- C2 witness: brush `water/0` over the two-tile document of the spec's
example scenario with attempt sequence `["0,0", "1,0", "0,0"]`: the
already-matching tile `(1,0)` is never mutated, while painting `(0,0)`
mutates it to `water/0` and records it. -/
theorem paint_stroke_at_most_once_witness :
    changes "1,0" (strokeStates "water" 0
      ⟨[⟨0, 0, "0,0", "", "grass", 1⟩, ⟨1, 0, "1,0", "", "water", 0⟩], ∅⟩
      ["0,0", "1,0", "0,0"]) = 0 ∧
    tileAt (paintAttempt "water" 0
        ⟨[⟨0, 0, "0,0", "", "grass", 1⟩, ⟨1, 0, "1,0", "", "water", 0⟩], ∅⟩
        "0,0").map "0,0" = some ⟨0, 0, "0,0", "", "water", 0⟩ ∧
    "0,0" ∈ (paintAttempt "water" 0
        ⟨[⟨0, 0, "0,0", "", "grass", 1⟩, ⟨1, 0, "1,0", "", "water", 0⟩], ∅⟩
        "0,0").painted := by
  have h2 := (paint_stroke_at_most_once "water" 0
      [⟨0, 0, "0,0", "", "grass", 1⟩, ⟨1, 0, "1,0", "", "water", 0⟩]
      ["0,0", "1,0", "0,0"] "1,0").2.1 ⟨1, 0, "1,0", "", "water", 0⟩ (by decide) rfl rfl
  have h5 := (paint_stroke_at_most_once "water" 0
      [⟨0, 0, "0,0", "", "grass", 1⟩, ⟨1, 0, "1,0", "", "water", 0⟩]
      [] "0,0").2.2.2.2.1
      ⟨[⟨0, 0, "0,0", "", "grass", 1⟩, ⟨1, 0, "1,0", "", "water", 0⟩], ∅⟩
      ⟨0, 0, "0,0", "", "grass", 1⟩ (by decide) (by simp) (by decide)
  exact ⟨h2, h5.1, h5.2⟩


-- ------------------------------------------------------------------
-- Hit tester (C4)
-- ------------------------------------------------------------------

/-- The update condition of the hit-test loop:
`dist < threshold && dist < closestDist`, with the initial
`closestDist = Infinity` modelled by `none` (every distance beats it). -/
def beats (th dist : ℝ) (acc : Option (Hex × ℝ)) : Prop :=
  dist < th ∧ ∀ p : Hex × ℝ, acc = some p → dist < p.2

open scoped Classical

/-- The `for (const hex of data.map)` loop of `findHexAtPoint`,
accumulating `(closest, closestDist)` (`none` before any hit). -/
noncomputable def findHexLoop (th : ℝ) (d : Hex → ℝ) :
    List Hex → Option (Hex × ℝ) → Option (Hex × ℝ)
  | [], acc => acc
  | hex :: rest, acc =>
      findHexLoop th d rest (if beats th (d hex) acc then some (hex, d hex) else acc)

/-- The loop over an empty list returns the accumulator. -/
lemma findHexLoop_nil (th : ℝ) (d : Hex → ℝ) (acc : Option (Hex × ℝ)) :
    findHexLoop th d [] acc = acc := rfl

/-- One unfolding of the hit-test loop. -/
lemma findHexLoop_cons (th : ℝ) (d : Hex → ℝ) (hex : Hex) (rest : List Hex)
    (acc : Option (Hex × ℝ)) :
    findHexLoop th d (hex :: rest) acc =
      findHexLoop th d rest (if beats th (d hex) acc then some (hex, d hex) else acc) := rfl

/-- With no tile under the threshold, the loop never records a hit. -/
lemma findHexLoop_none (th : ℝ) (d : Hex → ℝ) :
    ∀ l : List Hex, (∀ hex ∈ l, ¬(d hex < th)) → findHexLoop th d l none = none := by
  intro l
  induction l with
  | nil => intro _; rfl
  | cons hex rest ih =>
    intro hall
    rw [findHexLoop_cons, if_neg (fun hb => hall hex (by simp) hb.1)]
    exact ih (fun h2 hm => hall h2 (List.mem_cons_of_mem hex hm))

/-- Soundness: a recorded hit carries its own distance, is under the
threshold, and comes from the accumulator or the list. -/
lemma findHexLoop_sound (th : ℝ) (d : Hex → ℝ) :
    ∀ (l : List Hex) (acc : Option (Hex × ℝ)),
      (∀ h dd, acc = some (h, dd) → dd = d h ∧ dd < th) →
      ∀ h dd, findHexLoop th d l acc = some (h, dd) →
        dd = d h ∧ dd < th ∧ (acc = some (h, dd) ∨ h ∈ l) := by
  intro l
  induction l with
  | nil =>
    intro acc hinv h dd hres
    exact ⟨(hinv h dd hres).1, (hinv h dd hres).2, Or.inl hres⟩
  | cons hex rest ih =>
    intro acc hinv h dd hres
    rw [findHexLoop_cons] at hres
    by_cases hb : beats th (d hex) acc
    · rw [if_pos hb] at hres
      have hinv2 : ∀ h2 dd2, some (hex, d hex) = some (h2, dd2) → dd2 = d h2 ∧ dd2 < th := by
        intro h2 dd2 he
        injection he with he2
        injection he2 with ha hb2
        exact ⟨hb2 ▸ ha ▸ rfl, hb2 ▸ hb.1⟩
      obtain ⟨h1, h2c, h3⟩ := ih _ hinv2 h dd hres
      refine ⟨h1, h2c, ?_⟩
      rcases h3 with h3 | h3
      · injection h3 with he2
        injection he2 with ha hb2
        exact Or.inr (by rw [ha]; exact List.mem_cons_self h rest)
      · exact Or.inr (List.mem_cons_of_mem hex h3)
    · rw [if_neg hb] at hres
      obtain ⟨h1, h2c, h3⟩ := ih _ hinv h dd hres
      rcases h3 with h3 | h3
      · exact ⟨h1, h2c, Or.inl h3⟩
      · exact ⟨h1, h2c, Or.inr (List.mem_cons_of_mem hex h3)⟩

/-- The recorded distance never increases along the loop. -/
lemma findHexLoop_mono (th : ℝ) (d : Hex → ℝ) :
    ∀ (l : List Hex) (h0 : Hex) (d0 : ℝ) (h : Hex) (dd : ℝ),
      findHexLoop th d l (some (h0, d0)) = some (h, dd) → dd ≤ d0 := by
  intro l
  induction l with
  | nil =>
    intro h0 d0 h dd hres
    rw [findHexLoop_nil] at hres
    injection hres with he
    injection he with _ hb
    exact le_of_eq hb.symm
  | cons hex rest ih =>
    intro h0 d0 h dd hres
    rw [findHexLoop_cons] at hres
    by_cases hb : beats th (d hex) (some (h0, d0))
    · rw [if_pos hb] at hres
      exact le_of_lt (lt_of_le_of_lt (ih _ _ _ _ hres) (hb.2 (h0, d0) rfl))
    · rw [if_neg hb] at hres
      exact ih _ _ _ _ hres

/-- The final hit's distance is minimal over the scanned tiles. -/
lemma findHexLoop_min (th : ℝ) (d : Hex → ℝ) :
    ∀ (l : List Hex) (acc : Option (Hex × ℝ)),
      (∀ h dd, acc = some (h, dd) → dd = d h ∧ dd < th) →
      ∀ h dd, findHexLoop th d l acc = some (h, dd) →
        ∀ h2 ∈ l, dd ≤ d h2 := by
  intro l
  induction l with
  | nil => intro acc _ h dd _ h2 hm; exact absurd hm (List.not_mem_nil h2)
  | cons hex rest ih =>
    intro acc hinv h dd hres h2 hm
    rw [findHexLoop_cons] at hres
    rcases List.mem_cons.mp hm with hm | hm
    · subst hm
      by_cases hb : beats th (d h2) acc
      · rw [if_pos hb] at hres
        exact findHexLoop_mono th d rest _ _ _ _ hres
      · rw [if_neg hb] at hres
        rw [beats, not_and_or] at hb
        rcases hb with hb | hb
        · -- over threshold: the final distance is below threshold, hence smaller
          have hfin : dd < th := by
            rcases acc with _ | p
            · exact (findHexLoop_sound th d rest none (by intro _ _ hc; cases hc) h dd hres).2.1
            · exact (findHexLoop_sound th d rest (some p) hinv h dd hres).2.1
          exact le_of_lt (lt_of_lt_of_le hfin (le_of_not_lt hb))
        · push_neg at hb
          obtain ⟨p, hacc, hple⟩ := hb
          subst hacc
          exact le_trans (findHexLoop_mono th d rest _ _ _ _ (by rwa [← Prod.mk.eta (p := p)] at hres)) hple
    · by_cases hb : beats th (d hex) acc
      · rw [if_pos hb] at hres
        refine ih _ ?_ h dd hres h2 hm
        intro h3 dd3 he
        injection he with he2
        injection he2 with ha hb2
        exact ⟨hb2 ▸ ha ▸ rfl, hb2 ▸ hb.1⟩
      · rw [if_neg hb] at hres
        exact ih _ hinv h dd hres h2 hm

/-- A hit strictly closer than every remaining tile is kept. -/
lemma findHexLoop_stay (th : ℝ) (d : Hex → ℝ) :
    ∀ (l : List Hex) (h0 : Hex) (d0 : ℝ),
      (∀ h2 ∈ l, ¬(d h2 < d0)) →
      findHexLoop th d l (some (h0, d0)) = some (h0, d0) := by
  intro l
  induction l with
  | nil => intro h0 d0 _; rfl
  | cons hex rest ih =>
    intro h0 d0 hall
    rw [findHexLoop_cons, if_neg (fun hb => hall hex (by simp) (hb.2 (h0, d0) rfl))]
    exact ih h0 d0 (fun h2 hm => hall h2 (List.mem_cons_of_mem hex hm))

/-- The first tile attaining the minimum (strictly closer than every
earlier tile, at least as close as every later one) wins. -/
lemma findHexLoop_first (th : ℝ) (d : Hex → ℝ) (hex : Hex) (l2 : List Hex)
    (hth : d hex < th) (hl2 : ∀ h2 ∈ l2, ¬(d h2 < d hex)) :
    ∀ (l1 : List Hex) (acc : Option (Hex × ℝ)),
      (∀ h2 ∈ l1, d hex < d h2) →
      (acc = none ∨ ∃ h1 d1, acc = some (h1, d1) ∧ d hex < d1) →
      findHexLoop th d (l1 ++ hex :: l2) acc = some (hex, d hex) := by
  intro l1
  induction l1 with
  | nil =>
    intro acc _ hinv
    rw [List.nil_append, findHexLoop_cons, if_pos ?_]
    · exact findHexLoop_stay th d l2 hex (d hex) hl2
    · refine ⟨hth, ?_⟩
      intro p hacc
      rcases hinv with hinv | ⟨h1, d1, hinv, hlt⟩
      · rw [hinv] at hacc; cases hacc
      · rw [hinv] at hacc
        injection hacc with he
        rw [← he]
        exact hlt
  | cons a l1tl ih =>
    intro acc hl1 hinv
    rw [List.cons_append, findHexLoop_cons]
    by_cases hb : beats th (d a) acc
    · rw [if_pos hb]
      refine ih _ (fun h2 hm => hl1 h2 (List.mem_cons_of_mem a hm)) ?_
      exact Or.inr ⟨a, d a, rfl, hl1 a (List.mem_cons_self a l1tl)⟩
    · rw [if_neg hb]
      exact ih _ (fun h2 hm => hl1 h2 (List.mem_cons_of_mem a hm)) hinv

/-- The Euclidean distance from the query point to a tile's pixel center
(`axialToPixel` under the current layout configuration). -/
noncomputable def hexDist (size : ℝ) (o : Orientation) (rect stagger mirror : Bool)
    (maxR : ℤ) (px py : ℝ) (hex : Hex) : ℝ :=
  let c := axialToPixel hex.q hex.r size o rect stagger mirror maxR
  Real.sqrt ((px - c.1) ^ 2 + (py - c.2) ^ 2)

/-- `findHexAtPoint`: the closest tile within `0.9 × sizePx` of the
query point, or `none`. -/
noncomputable def findHexAtPoint (size : ℝ) (o : Orientation) (rect stagger mirror : Bool)
    (maxR : ℤ) (px py : ℝ) (m : List Hex) : Option Hex :=
  Option.map Prod.fst
    (findHexLoop (size * 0.9) (hexDist size o rect stagger mirror maxR px py) m none)

/-- C4: the hit tester returns `none` when no tile's center is within
`0.9 × size` of the point; a returned tile is in the map, within the
threshold and minimizes the Euclidean distance; and the first tile of the
map attaining the minimum (under the threshold) is the one returned. -/
theorem findHexAtPoint_spec (size : ℝ) (o : Orientation) (rect stagger mirror : Bool)
    (maxR : ℤ) (px py : ℝ) (m : List Hex) :
    ((∀ hex ∈ m, size * 0.9 ≤ hexDist size o rect stagger mirror maxR px py hex) →
      findHexAtPoint size o rect stagger mirror maxR px py m = none) ∧
    (∀ h, findHexAtPoint size o rect stagger mirror maxR px py m = some h →
      h ∈ m ∧ hexDist size o rect stagger mirror maxR px py h < size * 0.9 ∧
      ∀ h2 ∈ m, hexDist size o rect stagger mirror maxR px py h ≤
        hexDist size o rect stagger mirror maxR px py h2) ∧
    (∀ (l1 : List Hex) (h : Hex) (l2 : List Hex), m = l1 ++ h :: l2 →
      hexDist size o rect stagger mirror maxR px py h < size * 0.9 →
      (∀ h2 ∈ m, hexDist size o rect stagger mirror maxR px py h ≤
        hexDist size o rect stagger mirror maxR px py h2) →
      (∀ h2 ∈ l1, hexDist size o rect stagger mirror maxR px py h <
        hexDist size o rect stagger mirror maxR px py h2) →
      findHexAtPoint size o rect stagger mirror maxR px py m = some h) := by
  set d := hexDist size o rect stagger mirror maxR px py with hdd
  set th := size * 0.9 with hth
  have hinv0 : ∀ (h : Hex) (dd : ℝ), (none : Option (Hex × ℝ)) = some (h, dd) →
      dd = d h ∧ dd < th := by
    intro _ _ hc
    cases hc
  refine ⟨?_, ?_, ?_⟩
  · intro hall
    unfold findHexAtPoint
    rw [findHexLoop_none th d m (fun hex hm hlt => absurd (hall hex hm) (not_le.mpr hlt))]
    rfl
  · intro h hres
    unfold findHexAtPoint at hres
    rcases hloop : findHexLoop th d m none with _ | p
    · rw [hloop] at hres
      cases hres
    · rw [hloop] at hres
      have hfst : p.1 = h := by
        simpa using hres
      have hsound := findHexLoop_sound th d m none hinv0 p.1 p.2 (by rwa [Prod.mk.eta])
      rcases hsound with ⟨h1, h2c, h3⟩
      rcases h3 with h3 | h3
      · cases h3
      · refine ⟨hfst ▸ h3, by rw [← hfst, ← h1]; exact h2c, ?_⟩
        intro h2 hm
        rw [← hfst, ← h1]
        exact findHexLoop_min th d m none hinv0 p.1 p.2 (by rwa [Prod.mk.eta]) h2 hm
  · intro l1 h l2 hsplit hlt hmin hfirst
    unfold findHexAtPoint
    rw [hsplit]
    rw [findHexLoop_first th d h l2 hlt
      (fun h2 hm => not_lt.mpr (hmin h2 (by rw [hsplit]; exact List.mem_append_right l1 (List.mem_cons_of_mem h hm))))
      l1 none hfirst (Or.inl rfl)]
    rfl

/-- C4 witness: a single tile at the origin with `size = 100` is hit at
distance 0 by a query at the origin and returned. -/
theorem findHexAtPoint_spec_witness :
    hexDist 100 Orientation.pointy true true true 0 0 0 ⟨0, 0, "0,0", "", "grass", 0⟩ <
      100 * 0.9 ∧
    findHexAtPoint 100 Orientation.pointy true true true 0 0 0
        [⟨0, 0, "0,0", "", "grass", 0⟩] =
      some ⟨0, 0, "0,0", "", "grass", 0⟩ := by
  have hd : hexDist 100 Orientation.pointy true true true 0 0 0
      ⟨0, 0, "0,0", "", "grass", 0⟩ = 0 := by
    simp [hexDist, axialToPixel]
  constructor
  · rw [hd]
    norm_num
  · refine (findHexAtPoint_spec 100 Orientation.pointy true true true 0 0 0
      [⟨0, 0, "0,0", "", "grass", 0⟩]).2.2 [] ⟨0, 0, "0,0", "", "grass", 0⟩ [] rfl ?_ ?_ ?_
    · rw [hd]
      norm_num
    · intro h2 hm
      rw [List.mem_singleton.mp hm]
    · intro h2 hm
      exact absurd hm (List.not_mem_nil h2)

end HexMap
